import Mathlib

/-!
Verification of the sqlalchemy-parseable connector (Python) against its
natural-language specification.

The repository's core is regex-based rewriting of SQL query strings plus a
thin DB-API cursor/connection layer
(src/parseable_connector/parseable_dialect.py and
src/parseable_connector/__init__.py).  We shallowly embed the relevant
Python code over `List Char`: Python `str` operations (`replace`, `strip`,
`upper`, `in`) and the three concrete regular expressions the code uses are
hand-compiled into executable Lean functions.  All inputs of interest are
ASCII, so ASCII case folding models Python's case-insensitive matching and
`str.upper`, and ASCII `\s`, `\w`, `\d` model the regex character classes.
HTTP traffic is modelled as data: a response record is an input, and the
functions return the request payload that the Python code would transmit
together with the resulting cursor state or raised error message.
-/

namespace Parseable

/-- String literal to the `List Char` the model works over. -/
def s2l (s : String) : List Char := s.data

/-- The single-quote character, as used by the SQL timestamp literals. -/
def squote : Char := '\''

/-- The double-quote character, used when escaping table names. -/
def dquote : Char := '"'

/-- Python `\s` (ASCII range), also the characters `str.strip` removes. -/
def pyIsSpace (c : Char) : Bool :=
  c = ' ' || c = '\t' || c = '\n' || c = '\r' || c = '\x0b' || c = '\x0c'

/-- Python regex `\w` over ASCII: letters, digits and underscore. -/
def isWordChar (c : Char) : Bool :=
  c.isAlpha || c.isDigit || c = '_'

/-- ASCII lower-casing of one character. -/
def asciiLower (c : Char) : Char :=
  if 'A' ≤ c ∧ c ≤ 'Z' then Char.ofNat (c.toNat + 32) else c

/-- ASCII upper-casing of one character. -/
def asciiUpper (c : Char) : Char :=
  if 'a' ≤ c ∧ c ≤ 'z' then Char.ofNat (c.toNat - 32) else c

/-- Case-insensitive character comparison (regex `re.IGNORECASE`, ASCII). -/
def lowEq (a b : Char) : Bool := asciiLower a = asciiLower b

/-- Python `str.upper()` (ASCII). -/
def pyUpper (l : List Char) : List Char := l.map asciiUpper

/-- Python `str.strip()`: drop leading and trailing whitespace. -/
def pyStrip (l : List Char) : List Char :=
  (((l.dropWhile pyIsSpace).reverse.dropWhile pyIsSpace)).reverse

/-- Python `sub in s` substring containment. -/
def containsSub : List Char → List Char → Bool
  | [], sub => sub.isEmpty
  | c :: tl, sub => sub.isPrefixOf (c :: tl) || containsSub tl sub

/-- One scan step of Python `str.replace(pat, rep)` (all occurrences,
left to right, non-overlapping).  The `Nat` argument counts characters of a
recognized occurrence that remain to be consumed without being emitted. -/
def replaceAllGo (pat rep : List Char) : Nat → List Char → List Char
  | _, [] => []
  | 0, c :: tl =>
    if pat.isPrefixOf (c :: tl) then rep ++ replaceAllGo pat rep (pat.length - 1) tl
    else c :: replaceAllGo pat rep 0 tl
  | n + 1, _ :: tl => replaceAllGo pat rep n tl

/-- Python `s.replace(pat, rep)`.  For the (never exercised) empty pattern,
Python inserts `rep` before every character and at the end. -/
def replaceAll (s pat rep : List Char) : List Char :=
  if pat = [] then rep ++ (s.map (fun c => c :: rep)).flatten
  else replaceAllGo pat rep 0 s

/-- Python `s.replace(pat, rep, 1)`: first occurrence only. -/
def replaceFirst : List Char → List Char → List Char → List Char
  | l, pat, rep =>
    if pat.isPrefixOf l then rep ++ l.drop pat.length
    else match l with
      | [] => []
      | c :: tl => c :: replaceFirst tl pat rep

/-- Decimal value of a digit string, as Python `int` reads it. -/
def natOfDigits (ds : List Char) : Nat :=
  ds.foldl (fun n c => n * 10 + (c.toNat - 48)) 0

/-- Auxiliary digits-of-`n` with fuel (`n + 1` always suffices). -/
def natToDecGo : Nat → Nat → List Char → List Char
  | 0, _, acc => acc
  | f + 1, n, acc =>
    let d := Char.ofNat (48 + n % 10)
    if n < 10 then d :: acc else natToDecGo f (n / 10) (d :: acc)

/-- Decimal rendering of a natural number, as Python's f-string renders it. -/
def natToDec (n : Nat) : List Char := natToDecGo (n + 1) n []

/-- Match the literal `pat` case-insensitively at the head of the input,
returning the consumed input characters and the remainder. -/
def eatPfxCI : List Char → List Char → Option (List Char × List Char)
  | [], l => some ([], l)
  | _ :: _, [] => none
  | p :: ps, c :: cs =>
    if lowEq p c then (eatPfxCI ps cs).map (fun tr => (c :: tr.1, tr.2)) else none

/-- Greedy `p*`: consumed characters and remainder. -/
def eatWhile0 (p : Char → Bool) (l : List Char) : List Char × List Char :=
  (l.takeWhile p, l.dropWhile p)

/-- Greedy `p+`: fails on an empty match. -/
def eatWhile1 (p : Char → Bool) (l : List Char) : Option (List Char × List Char) :=
  match l.takeWhile p with
  | [] => none
  | c :: tl => some (c :: tl, l.dropWhile p)

/-- The anchored match of the time-range regex
`WHERE\s+p_timestamp\s*>=\s*'([^']+)'\s*AND\s+p_timestamp\s*<\s*'([^']+)'`
(`re.IGNORECASE`) at the head of the input, as in
`_extract_and_remove_time_conditions`.  Returns the matched text
(`match.group(0)`) and the two literal groups.  Every concatenation point of
the pattern is deterministic, so greedy matching is exact. -/
def tsMatchAt (l : List Char) : Option (List Char × List Char × List Char) := do
  let (t1, r) ← eatPfxCI (s2l "WHERE") l
  let (t2, r) ← eatWhile1 pyIsSpace r
  let (t3, r) ← eatPfxCI (s2l "p_timestamp") r
  let (t4, r) := eatWhile0 pyIsSpace r
  let (t5, r) ← eatPfxCI (s2l ">=") r
  let (t6, r) := eatWhile0 pyIsSpace r
  let (t7, r) ← eatPfxCI [squote] r
  let (g1, r) ← eatWhile1 (fun c => c ≠ squote) r
  let (t9, r) ← eatPfxCI [squote] r
  let (t10, r) := eatWhile0 pyIsSpace r
  let (t11, r) ← eatPfxCI (s2l "AND") r
  let (t12, r) ← eatWhile1 pyIsSpace r
  let (t13, r) ← eatPfxCI (s2l "p_timestamp") r
  let (t14, r) := eatWhile0 pyIsSpace r
  let (t15, r) ← eatPfxCI (s2l "<") r
  let (t16, r) := eatWhile0 pyIsSpace r
  let (t17, r) ← eatPfxCI [squote] r
  let (g2, r) ← eatWhile1 (fun c => c ≠ squote) r
  let (t19, _) ← eatPfxCI [squote] r
  return (t1 ++ t2 ++ t3 ++ t4 ++ t5 ++ t6 ++ t7 ++ g1 ++ t9 ++ t10 ++ t11 ++
          t12 ++ t13 ++ t14 ++ t15 ++ t16 ++ t17 ++ g2 ++ t19, g1, g2)

/-- `re.search` of the time-range pattern: leftmost match, scanning
positions left to right.  Returns (matched text, literal 1, literal 2). -/
def tsSearch : List Char → Option (List Char × List Char × List Char)
  | [] => none
  | c :: tl =>
    match tsMatchAt (c :: tl) with
    | some x => some x
    | none => tsSearch tl

/-- `' '.replace(' ', 'T')` on one character: the space separator becomes
`T` when the matched literal is converted for the Parseable API. -/
def spaceToT (c : Char) : Char := if c = ' ' then 'T' else c

/-- `ParseableClient._extract_and_remove_time_conditions`
(parseable_dialect.py, lines 189-208): on a match, convert both literals
(space to `T`, append `Z`), delete every occurrence of the matched text via
`str.replace`, and if `'WHERE' in modified.upper()` replace the first
occurrence of the substring `'AND'` (case-sensitively) with `'WHERE'`;
otherwise return the stripped query with the relative window `10m`/`now`.
Returns (modified query, startTime, endTime). -/
def extract_and_remove_time_conditions (query : List Char) :
    List Char × List Char × List Char :=
  match tsSearch query with
  | some (m, g1, g2) =>
    let start_str := (g1.map spaceToT) ++ ['Z']
    let end_str := (g2.map spaceToT) ++ ['Z']
    let modified := replaceAll query m []
    let modified :=
      if containsSub (pyUpper modified) (s2l "WHERE") then
        replaceFirst modified (s2l "AND") (s2l "WHERE")
      else modified
    (pyStrip modified, start_str, end_str)
  | none => (pyStrip query, s2l "10m", s2l "now")

/-- `ParseableCursor._extract_and_remove_time_conditions`
(`__init__.py`, lines 44-77): identical matching and removal logic, but the
time bounds come back as `None` when the pattern is absent. -/
def init_extract_time_conditions (query : List Char) :
    List Char × Option (List Char) × Option (List Char) :=
  match tsSearch query with
  | some (m, g1, g2) =>
    let start_time := (g1.map spaceToT) ++ ['Z']
    let end_time := (g2.map spaceToT) ++ ['Z']
    let modified := replaceAll query m []
    let modified :=
      if containsSub (pyUpper modified) (s2l "WHERE") then
        replaceFirst modified (s2l "AND") (s2l "WHERE")
      else modified
    (pyStrip modified, some start_time, some end_time)
  | none => (pyStrip query, none, none)

/-- The three aggregate names of the pattern `(AVG|SUM|COUNT)\s*\(([^)]+)\)`. -/
inductive AggKind where
  | avg
  | sum
  | count
deriving DecidableEq, Repr

/-- The alternation `AVG|SUM|COUNT`, case-insensitively, at the head of the
input: kind, consumed characters, remainder. -/
def eatAggName (l : List Char) : Option (AggKind × List Char × List Char) :=
  match eatPfxCI (s2l "AVG") l with
  | some (t, r) => some (.avg, t, r)
  | none =>
    match eatPfxCI (s2l "SUM") l with
    | some (t, r) => some (.sum, t, r)
    | none =>
      match eatPfxCI (s2l "COUNT") l with
      | some (t, r) => some (.count, t, r)
      | none => none

/-- Anchored match of `(AVG|SUM|COUNT)\s*\(([^)]+)\)` (`re.IGNORECASE`):
kind, the argument group, and the remainder after the closing parenthesis.
Each concatenation point is deterministic (the classes exclude the
delimiter that follows), so greedy matching is exact. -/
def aggMatchAt (l : List Char) : Option (AggKind × List Char × List Char) :=
  match eatAggName l with
  | none => none
  | some (k, _, r1) =>
    match eatPfxCI (s2l "(") (eatWhile0 pyIsSpace r1).2 with
    | none => none
    | some (_, r3) =>
      match eatWhile1 (fun c => c ≠ ')') r3 with
      | none => none
      | some (f, r4) =>
        match eatPfxCI (s2l ")") r4 with
        | none => none
        | some (_, r5) => some (k, f, r5)

/-- `replace_agg` (parseable_dialect.py, lines 90-96): the replacement text
for one aggregate match; the function name is upper-cased and the argument
stripped; `AVG`/`SUM` arguments are wrapped in `TRY_CAST(... AS DOUBLE)`. -/
def replace_agg (k : AggKind) (field : List Char) : List Char :=
  match k with
  | .avg => s2l "AVG(TRY_CAST(" ++ pyStrip field ++ s2l " AS DOUBLE))"
  | .sum => s2l "SUM(TRY_CAST(" ++ pyStrip field ++ s2l " AS DOUBLE))"
  | .count => s2l "COUNT(" ++ pyStrip field ++ s2l ")"

/-- One scan step of `re.sub` for the aggregate pattern.  The `Nat` counts
characters of a recognized match still to consume without emitting. -/
def aggSubGo : Nat → List Char → List Char
  | _, [] => []
  | 0, c :: tl =>
    match aggMatchAt (c :: tl) with
    | some (k, f, rest) =>
      replace_agg k f ++ aggSubGo ((c :: tl).length - rest.length - 1) tl
    | none => c :: aggSubGo 0 tl
  | n + 1, _ :: tl => aggSubGo n tl

/-- `re.sub(numeric_agg_pattern, replace_agg, query, flags=re.IGNORECASE)`. -/
def aggSub (l : List Char) : List Char := aggSubGo 0 l

/-- Anchored match of `\bLIMIT\s+(\d+)\b` (`re.IGNORECASE`).  `prevW` says
whether the character before the current position is a word character (the
leading `\b` requires it not to be, since `L` is one); the trailing `\b`
requires the character after the digits to be absent or non-word.  Returns
the digit group and the remainder. -/
def limMatchAt (prevW : Bool) (l : List Char) : Option (List Char × List Char) :=
  if prevW then none
  else
    match eatPfxCI (s2l "LIMIT") l with
    | none => none
    | some (_, r) =>
      match eatWhile1 pyIsSpace r with
      | none => none
      | some (_, r) =>
        match eatWhile1 Char.isDigit r with
        | none => none
        | some (ds, r) =>
          match r with
          | [] => some (ds, [])
          | c :: cs => if isWordChar c then none else some (ds, c :: cs)

/-- `re.search(limit_pattern, ...)`: the digit group of the leftmost match. -/
def limSearchGo : Bool → List Char → Option (List Char)
  | _, [] => none
  | prevW, c :: tl =>
    match limMatchAt prevW (c :: tl) with
    | some (ds, _) => some ds
    | none => limSearchGo (isWordChar c) tl

/-- The first `\bLIMIT\s+(\d+)\b` match's digits, if any. -/
def limSearch (l : List Char) : Option (List Char) := limSearchGo false l

/-- One scan step of `re.sub(limit_pattern, '', ...)`: each left-to-right
match is deleted; the skip counter consumes matched characters. -/
def limRemoveGo : Bool → Nat → List Char → List Char
  | _, _, [] => []
  | prevW, 0, c :: tl =>
    match limMatchAt prevW (c :: tl) with
    | some (_, rest) => limRemoveGo (isWordChar c) ((c :: tl).length - rest.length - 1) tl
    | none => c :: limRemoveGo (isWordChar c) 0 tl
  | _, n + 1, c :: tl => limRemoveGo (isWordChar c) n tl

/-- `re.sub(limit_pattern, '', modified_query, flags=re.IGNORECASE)`. -/
def limRemove (l : List Char) : List Char := limRemoveGo false 0 l

/-- The number of `\bLIMIT\s+(\d+)\b` matches a left-to-right scan finds:
the count of LIMIT clauses the code's own pattern recognizes in a string. -/
def limCountGo : Bool → Nat → List Char → Nat
  | _, _, [] => 0
  | prevW, 0, c :: tl =>
    match limMatchAt prevW (c :: tl) with
    | some (_, rest) => 1 + limCountGo (isWordChar c) ((c :: tl).length - rest.length - 1) tl
    | none => limCountGo (isWordChar c) 0 tl
  | _, n + 1, c :: tl => limCountGo (isWordChar c) n tl

/-- The number of LIMIT-number clauses in a string. -/
def limCount (l : List Char) : Nat := limCountGo false 0 l

/-- `ParseableClient._transform_query` (parseable_dialect.py, lines 84-118):
rewrite aggregates, find the first `LIMIT n`, delete all `LIMIT n` matches,
cap the limit at 100 (default 100 when absent) and append it at the end of
the stripped query. -/
def transform_query (query : List Char) : List Char :=
  let modified := aggSub query
  match limSearch modified with
  | some ds =>
    let current := natOfDigits ds
    let modified := limRemove modified
    let current := if current > 100 then 100 else current
    pyStrip modified ++ s2l " LIMIT " ++ natToDec current
  | none => pyStrip modified ++ s2l " LIMIT 100"

/-- `ParseableClient._escape_table_name` (parseable_dialect.py, lines
78-82): wrap the name in double quotes when it contains `-`, ` ` or `.`. -/
def escape_table_name (table_name : List Char) : List Char :=
  if table_name.contains '-' || table_name.contains ' ' || table_name.contains '.' then
    dquote :: (table_name ++ [dquote])
  else table_name

/-- The double-quoted form of a table name, `f'"{table_name}"'`. -/
def dquoted (t : List Char) : List Char := dquote :: (t ++ [dquote])

/-- The table-name quoting step of `ParseableClient.execute_query`
(parseable_dialect.py, lines 125-127): if the query does not already
contain the double-quoted name, replace every occurrence of the raw name
with its escaped form. -/
def quote_table_in_query (modified_query table_name : List Char) : List Char :=
  if containsSub modified_query (dquoted table_name) then modified_query
  else replaceAll modified_query table_name (escape_table_name table_name)

/-- The JSON body `{query, startTime, endTime}` posted to `/api/v1/query`. -/
structure QueryPayload where
  query : List Char
  startTime : List Char
  endTime : List Char
deriving DecidableEq, Repr

/-- The request `ParseableClient.execute_query` builds for a table and a
query (parseable_dialect.py, lines 120-133): transform, extract the time
window, then quote the table name. -/
def execute_query_payload (table_name query : List Char) : QueryPayload :=
  let modified := transform_query query
  let (modified, start_time, end_time) := extract_and_remove_time_conditions modified
  { query := quote_table_in_query modified table_name,
    startTime := start_time, endTime := end_time }

/-- A JSON scalar in a result row. -/
inductive JVal where
  | jnull
  | jbool (b : Bool)
  | jnum (n : Int)
  | jstr (s : List Char)
deriving DecidableEq, Repr

/-- A result row: a JSON object with insertion-ordered keys, as a Python
dict preserves the server's column order. -/
abbrev Row := List (List Char × JVal)

/-- The JSON body of a query response as the dialect's cursor sees it:
`isinstance(result, list)` distinguishes an array from anything else. -/
inductive JsonBody where
  | arr (rows : List Row)
  | other
deriving DecidableEq, Repr

/-- The HTTP response to a posted query, as data: status code, raw text, and
parsed JSON body. -/
structure HttpResponse where
  status : Nat
  text : List Char
  json : JsonBody
deriving DecidableEq, Repr

/-- `requests.Response.raise_for_status` raises for 4xx/5xx codes. -/
def raiseForStatus (status : Nat) : Bool := 400 ≤ status

/-- `ParseableClient.execute_query` (parseable_dialect.py, lines 120-163):
the pair of the request it posts and either the parsed JSON body or the
`DatabaseError` message it raises.  `errText` stands for `str(e)` of the
`requests` exception on a non-success status (built by the HTTP library,
not by this repository). -/
def execute_query (table_name query : List Char) (resp : HttpResponse)
    (errText : List Char) : QueryPayload × Except (List Char) JsonBody :=
  (execute_query_payload table_name query,
    if raiseForStatus resp.status then
      .error (s2l "Query execution failed: " ++ errText)
    else .ok resp.json)

deriving instance DecidableEq for Except

/-- The column type constants the dialect reports (`types.INTEGER` for the
fabricated ping row, `types.VARCHAR` for data columns). -/
inductive SqlTy where
  | integer
  | varchar
deriving DecidableEq, Repr

/-- The dialect-module cursor state (parseable_dialect.py, lines 210-216):
buffered rows, `_rowcount` (initially `-1`), and the description (name and
type; the five trailing `None` fields of each 7-tuple carry no data). -/
structure DialectCursor where
  rows : List Row
  rowcount : Int
  description : Option (List (List Char × SqlTy))
deriving DecidableEq, Repr

/-- A freshly constructed dialect cursor. -/
def DialectCursor.init : DialectCursor :=
  { rows := [], rowcount := -1, description := none }

/-- `ParseableCursor.execute` of parseable_dialect.py (lines 218-252) for a
connection bound to `table` : the payload posted (none when no query was
issued) and either the raised `DatabaseError` message or the new cursor
state together with the returned `_rowcount`.  A trimmed, upper-cased
`SELECT 1` is intercepted and a probe query on the bound table is sent
instead; a non-list or empty JSON body leaves the previous state intact. -/
def dialectExecute (table : Option (List Char)) (st : DialectCursor)
    (operation : List Char) (resp : HttpResponse) (errText : List Char) :
    Option QueryPayload × Except (List Char) (DialectCursor × Int) :=
  match table with
  | none => (none, .error (s2l "No table name specified in connection string"))
  | some t =>
    if pyUpper (pyStrip operation) = s2l "SELECT 1" then
      let (p, r) := execute_query t (s2l "select * from " ++ t ++ s2l " limit 1") resp errText
      match r with
      | .error e => (some p, .error e)
      | .ok _ =>
        let st' : DialectCursor :=
          { rows := [[(s2l "result", JVal.jnum 1)]],
            rowcount := 1,
            description := some [(s2l "result", SqlTy.integer)] }
        (some p, .ok (st', 1))
    else
      let (p, r) := execute_query t operation resp errText
      match r with
      | .error e => (some p, .error e)
      | .ok body =>
        match body with
        | .arr (r0 :: rs) =>
          let st' : DialectCursor :=
            { rows := r0 :: rs,
              rowcount := (r0 :: rs).length,
              description := some (r0.map (fun kv => (kv.1, SqlTy.varchar))) }
          (some p, .ok (st', (r0 :: rs).length))
        | _ => (some p, .ok (st, st.rowcount))

/-- `ParseableCursor.fetchall` of parseable_dialect.py (lines 259-262):
every buffered row as a tuple of its values, and the emptied cursor. -/
def dialectFetchall (st : DialectCursor) : List (List JVal) × DialectCursor :=
  (st.rows.map (fun r => r.map Prod.snd), { st with rows := [] })

/-- The cursor state of the package-root module (`__init__.py`, lines
36-42): `_rowcount` starts at 0 there. -/
structure InitCursor where
  rows : List Row
  rowcount : Nat
  description : Option (List (List Char))
deriving DecidableEq, Repr

/-- The response record for the package-root cursor, whose
`execute` checks `status_code != 200` and reads the body as a JSON array. -/
structure InitResponse where
  status : Nat
  text : List Char
  json : List Row
deriving DecidableEq, Repr

/-- Python `x or default` on an optional string: `None` and the empty
string are both falsy. -/
def pyOrElse (o : Option (List Char)) (d : List Char) : List Char :=
  match o with
  | some s => if s = [] then d else s
  | none => d

/-- `ParseableCursor.execute` of `__init__.py` (lines 79-135): the payload
posted (after time extraction and defaulting) and either the raised
`DatabaseError` message (non-200 status, message `Query failed: ` plus the
response text) or the new cursor state. -/
def initExecute (operation : List Char) (resp : InitResponse) :
    QueryPayload × Except (List Char) InitCursor :=
  let (modified, start?, end?) := init_extract_time_conditions operation
  let payload : QueryPayload :=
    { query := modified,
      startTime := pyOrElse start? (s2l "10m"),
      endTime := pyOrElse end? (s2l "now") }
  (payload,
    if resp.status ≠ 200 then .error (s2l "Query failed: " ++ resp.text)
    else
      match resp.json with
      | [] => .ok { rows := [], rowcount := 0, description := none }
      | r0 :: rs =>
        .ok { rows := r0 :: rs,
              rowcount := (r0 :: rs).length,
              description := some (r0.map Prod.fst) })

/-- `ParseableCursor.executemany` of `__init__.py` (lines 137-138): a
single unconditional `raise NotImplementedError("executemany is not
supported")`; no request is built and no per-parameter execution happens. -/
def initExecutemany (operation : List Char) (seq_of_parameters : List Row) :
    Except (List Char) Unit :=
  .error (s2l "executemany is not supported")

/-- `ParseableCursor.fetchall` of `__init__.py` (lines 140-141): tuples of
each buffered row's values, in each row's own key order. -/
def initFetchall (st : InitCursor) : List (List JVal) :=
  st.rows.map (fun r => r.map Prod.snd)

/-! Concrete inputs used by individual claims' counterexamples and
witnesses. -/

/-- A query whose time-range clause removal leaves another WHERE behind, so
the code additionally rewrites the first `AND` substring. -/
def c1cexQ : List Char :=
  s2l "SELECT a FROM t WHERE x = 1 AND y = 2 WHERE p_timestamp >= '2024-01-01 00:00:00' AND p_timestamp < '2024-01-02 00:00:00'"

/-- The spec's scenario query. -/
def c1wQ : List Char :=
  s2l "SELECT * FROM logs WHERE p_timestamp >= '2024-01-01 00:00:00' AND p_timestamp < '2024-01-02 00:00:00'"

/-- The clause of `c1wQ` the time-range regex matches. -/
def c1wM : List Char :=
  s2l "WHERE p_timestamp >= '2024-01-01 00:00:00' AND p_timestamp < '2024-01-02 00:00:00'"

/-- A query whose removal leaves a dangling `AND x = 1` and no WHERE. -/
def c2cexQ : List Char :=
  s2l "SELECT * FROM t WHERE p_timestamp >= '2024-01-01 00:00:00' AND p_timestamp < '2024-01-02 00:00:00' AND x = 1"

/-- A query with a residual WHERE, so the AND-to-WHERE rewrite fires. -/
def c2wQ : List Char :=
  s2l "SELECT b FROM u WHERE c = 1 AND d = 2 WHERE p_timestamp >= '2024-03-01 00:00:00' AND p_timestamp < '2024-03-02 00:00:00'"

/-- The clause of `c2wQ` the time-range regex matches. -/
def c2wM : List Char :=
  s2l "WHERE p_timestamp >= '2024-03-01 00:00:00' AND p_timestamp < '2024-03-02 00:00:00'"

/-- A query where deleting the single `LIMIT 7` match juxtaposes the
remaining text into a new LIMIT-shaped clause. -/
def c4cexQ : List Char := s2l "SELECT a FROM t LIMIT LIMIT 7 5"

/-! Helper lemmas about the string primitives. -/

theorem containsSub_refl (b : List Char) : containsSub b b = true := by
  cases b with
  | nil => rfl
  | cons c tl => simp [containsSub, List.isPrefixOf_iff_prefix]

theorem containsSub_append_self (a b : List Char) : containsSub (a ++ b) b = true := by
  induction a with
  | nil => simpa using containsSub_refl b
  | cons c tl ih => simp [containsSub, ih]

theorem containsSub_iff_isInfix (l sub : List Char) :
    containsSub l sub = true ↔ sub <:+: l := by
  induction l with
  | nil => simp [containsSub, List.isEmpty_iff, List.infix_nil]
  | cons c tl ih =>
    simp [containsSub, List.isPrefixOf_iff_prefix, ih, List.infix_cons_iff]

theorem isInfix_of_map (f : Char → Char) (l₁ l₂ : List Char)
    (h : l₁ <:+: l₂) : l₁.map f <:+: l₂.map f := by
  obtain ⟨s, t, rfl⟩ := h
  exact ⟨s.map f, t.map f, by simp⟩

theorem pyStrip_isInfix (l : List Char) : pyStrip l <:+: l := by
  have h1 : l.dropWhile pyIsSpace <:+ l := List.dropWhile_suffix pyIsSpace
  have h2 : (l.dropWhile pyIsSpace).reverse.dropWhile pyIsSpace <:+
      (l.dropWhile pyIsSpace).reverse := List.dropWhile_suffix pyIsSpace
  obtain ⟨w, hw⟩ := h2
  have h3 : pyStrip l <+: l.dropWhile pyIsSpace := by
    refine ⟨w.reverse, ?_⟩
    have hrev := congrArg List.reverse hw
    simpa [pyStrip] using hrev
  exact h3.isInfix.trans h1.isInfix

theorem containsSub_of_strip (mq W : List Char)
    (h : containsSub (pyUpper (pyStrip mq)) W = true) :
    containsSub (pyUpper mq) W = true := by
  rw [containsSub_iff_isInfix] at h ⊢
  exact h.trans (isInfix_of_map asciiUpper _ _ (pyStrip_isInfix mq))

theorem replaceAllGo_drop (pat rep : List Char) :
    ∀ (n : Nat) (l : List Char),
      replaceAllGo pat rep n l = replaceAllGo pat rep 0 (l.drop n) := by
  intro n
  induction n with
  | zero => intro l; rw [List.drop_zero]
  | succ n ih =>
    intro l
    cases l with
    | nil => simp [replaceAllGo]
    | cons c tl => rw [List.drop_succ_cons, ← ih tl]; rfl

theorem map_singleton_flatten (s : List Char) :
    (s.map (fun c => c :: ([] : List Char))).flatten = s := by
  induction s with
  | nil => rfl
  | cons c tl ih => simp [ih]

theorem replaceAllGo_self (pat : List Char) (hp : pat ≠ []) :
    ∀ (n : Nat) (s : List Char), s.length ≤ n → replaceAllGo pat pat 0 s = s := by
  intro n
  induction n with
  | zero =>
    intro s hs
    have hnil : s = [] := List.eq_nil_of_length_eq_zero (Nat.le_zero.mp hs)
    subst hnil; rfl
  | succ n ih =>
    intro s hs
    cases s with
    | nil => rfl
    | cons c tl =>
      by_cases hpre : pat.isPrefixOf (c :: tl)
      · obtain ⟨rest, hrest⟩ := List.isPrefixOf_iff_prefix.mp hpre
        have hplen : 1 ≤ pat.length := by
          cases pat with
          | nil => exact absurd rfl hp
          | cons p0 pt => simp
        have hdrop : (c :: tl).drop pat.length = rest := by
          rw [← hrest, List.drop_left]
        have hsucc : pat.length = (pat.length - 1) + 1 := by omega
        have hdrop2 : tl.drop (pat.length - 1) = rest := by
          rw [hsucc, List.drop_succ_cons] at hdrop
          exact hdrop
        have htl : tl.length ≤ n := by simpa using hs
        have hrlen : rest.length ≤ n := by
          rw [← hdrop2, List.length_drop]; omega
        have hstep : replaceAllGo pat pat 0 (c :: tl) =
            pat ++ replaceAllGo pat pat (pat.length - 1) tl := by
          simp [replaceAllGo, hpre]
        rw [hstep, replaceAllGo_drop, hdrop2, ih rest hrlen, hrest]
      · have hstep : replaceAllGo pat pat 0 (c :: tl) =
            c :: replaceAllGo pat pat 0 tl := by
          simp [replaceAllGo, hpre]
        rw [hstep, ih tl (Nat.le_of_succ_le_succ hs)]

theorem replaceAll_self (s pat : List Char) : replaceAll s pat pat = s := by
  by_cases hp : pat = []
  · subst hp; simpa [replaceAll] using map_singleton_flatten s
  · simp only [replaceAll, hp, if_false]
    exact replaceAllGo_self pat hp s.length s le_rfl

/-! Decomposition lemmas for the matcher primitives: a successful match
consumes a non-empty prefix of the input. -/

theorem eatPfxCI_append : ∀ (p l t r : List Char),
    eatPfxCI p l = some (t, r) → l = t ++ r ∧ t.length = p.length := by
  intro p
  induction p with
  | nil =>
    intro l t r h
    simp [eatPfxCI] at h
    obtain ⟨ht, hr⟩ := h
    subst ht; subst hr; simp
  | cons p ps ih =>
    intro l t r h
    cases l with
    | nil => simp [eatPfxCI] at h
    | cons c cs =>
      by_cases hl : lowEq p c
      · simp only [eatPfxCI, hl, if_true, Option.map_eq_some'] at h
        obtain ⟨⟨t', r'⟩, h1, h2⟩ := h
        obtain ⟨hcs, hlen⟩ := ih cs t' r' h1
        simp only [Prod.mk.injEq] at h2
        obtain ⟨ht, hr⟩ := h2
        subst ht; subst hr; subst hcs
        simp [hlen]
      · simp [eatPfxCI, hl] at h

theorem eatWhile1_append (p : Char → Bool) (l t r : List Char)
    (h : eatWhile1 p l = some (t, r)) : l = t ++ r ∧ t ≠ [] := by
  unfold eatWhile1 at h
  cases htw : l.takeWhile p with
  | nil => rw [htw] at h; simp at h
  | cons c tl =>
    rw [htw] at h
    simp only [Option.some.injEq, Prod.mk.injEq] at h
    obtain ⟨ht, hr⟩ := h
    subst ht; subst hr
    refine ⟨?_, by simp⟩
    rw [← htw, List.takeWhile_append_dropWhile]

theorem eatAggName_append (l : List Char) (k : AggKind) (t r : List Char)
    (h : eatAggName l = some (k, t, r)) : l = t ++ r ∧ t ≠ [] := by
  unfold eatAggName at h
  cases h1 : eatPfxCI (s2l "AVG") l with
  | some tr =>
    obtain ⟨t1, r1⟩ := tr
    rw [h1] at h
    simp only [Option.some.injEq, Prod.mk.injEq] at h
    obtain ⟨hk, ht, hr⟩ := h
    subst ht; subst hr
    obtain ⟨hl, hlen⟩ := eatPfxCI_append _ l t1 r1 h1
    exact ⟨hl, by intro hnil; rw [hnil] at hlen; simp [s2l] at hlen⟩
  | none =>
    rw [h1] at h
    cases h2 : eatPfxCI (s2l "SUM") l with
    | some tr =>
      obtain ⟨t1, r1⟩ := tr
      rw [h2] at h
      simp only [Option.some.injEq, Prod.mk.injEq] at h
      obtain ⟨hk, ht, hr⟩ := h
      subst ht; subst hr
      obtain ⟨hl, hlen⟩ := eatPfxCI_append _ l t1 r1 h2
      exact ⟨hl, by intro hnil; rw [hnil] at hlen; simp [s2l] at hlen⟩
    | none =>
      rw [h2] at h
      cases h3 : eatPfxCI (s2l "COUNT") l with
      | some tr =>
        obtain ⟨t1, r1⟩ := tr
        rw [h3] at h
        simp only [Option.some.injEq, Prod.mk.injEq] at h
        obtain ⟨hk, ht, hr⟩ := h
        subst ht; subst hr
        obtain ⟨hl, hlen⟩ := eatPfxCI_append _ l t1 r1 h3
        exact ⟨hl, by intro hnil; rw [hnil] at hlen; simp [s2l] at hlen⟩
      | none => rw [h3] at h; exact absurd h (by simp)

theorem aggMatchAt_append (l : List Char) (k : AggKind) (f rest : List Char)
    (h : aggMatchAt l = some (k, f, rest)) : ∃ t, l = t ++ rest ∧ t ≠ [] := by
  unfold aggMatchAt at h
  cases h1 : eatAggName l with
  | none => rw [h1] at h; exact absurd h (by simp)
  | some ktr =>
    obtain ⟨k1, t1, r1⟩ := ktr
    rw [h1] at h
    dsimp only at h
    cases h2 : eatPfxCI (s2l "(") (eatWhile0 pyIsSpace r1).2 with
    | none => rw [h2] at h; exact absurd h (by simp)
    | some tr2 =>
      obtain ⟨t2, r2⟩ := tr2
      rw [h2] at h
      dsimp only at h
      cases h3 : eatWhile1 (fun c => c ≠ ')') r2 with
      | none => rw [h3] at h; exact absurd h (by simp)
      | some tr3 =>
        obtain ⟨f3, r3⟩ := tr3
        rw [h3] at h
        dsimp only at h
        cases h4 : eatPfxCI (s2l ")") r3 with
        | none => rw [h4] at h; exact absurd h (by simp)
        | some tr4 =>
          obtain ⟨t4, r4⟩ := tr4
          rw [h4] at h
          dsimp only at h
          simp only [Option.some.injEq, Prod.mk.injEq] at h
          obtain ⟨hk, hf, hr⟩ := h
          obtain ⟨hl1, ht1⟩ := eatAggName_append l k1 t1 r1 h1
          obtain ⟨hl2, hlen2⟩ := eatPfxCI_append _ _ _ _ h2
          obtain ⟨hl3, hne3⟩ := eatWhile1_append _ _ _ _ h3
          obtain ⟨hl4, hlen4⟩ := eatPfxCI_append _ _ _ _ h4
          have hr1 : r1 = (eatWhile0 pyIsSpace r1).1 ++ (eatWhile0 pyIsSpace r1).2 := by
            simp [eatWhile0, List.takeWhile_append_dropWhile]
          have hls : l = (t1 ++ ((eatWhile0 pyIsSpace r1).1 ++ (t2 ++ (f3 ++ t4)))) ++ r4 := by
            calc l = t1 ++ r1 := hl1
              _ = t1 ++ ((eatWhile0 pyIsSpace r1).1 ++ (eatWhile0 pyIsSpace r1).2) := by
                  rw [← hr1]
              _ = t1 ++ ((eatWhile0 pyIsSpace r1).1 ++ (t2 ++ r2)) := by rw [hl2]
              _ = t1 ++ ((eatWhile0 pyIsSpace r1).1 ++ (t2 ++ (f3 ++ r3))) := by rw [hl3]
              _ = t1 ++ ((eatWhile0 pyIsSpace r1).1 ++ (t2 ++ (f3 ++ (t4 ++ r4)))) := by
                  rw [hl4]
              _ = (t1 ++ ((eatWhile0 pyIsSpace r1).1 ++ (t2 ++ (f3 ++ t4)))) ++ r4 := by
                  simp [List.append_assoc]
          refine ⟨t1 ++ ((eatWhile0 pyIsSpace r1).1 ++ (t2 ++ (f3 ++ t4))), ?_, ?_⟩
          · rw [← hr]
            exact hls
          · intro hnil
            simp only [List.append_eq_nil] at hnil
            exact ht1 hnil.1

/-! Scan lemmas for the aggregate substitution. -/

theorem aggSubGo_drop : ∀ (n : Nat) (l : List Char),
    aggSubGo n l = aggSubGo 0 (l.drop n) := by
  intro n
  induction n with
  | zero => intro l; rw [List.drop_zero]
  | succ n ih =>
    intro l
    cases l with
    | nil => simp [aggSubGo]
    | cons c tl => rw [List.drop_succ_cons, ← ih tl]; rfl

theorem aggSub_cons_of_none (c : Char) (tl : List Char)
    (h : aggMatchAt (c :: tl) = none) :
    aggSub (c :: tl) = c :: aggSub tl := by
  simp [aggSub, aggSubGo, h]

theorem aggSub_of_match (l : List Char) (k : AggKind) (f rest : List Char)
    (h : aggMatchAt l = some (k, f, rest)) :
    aggSub l = replace_agg k f ++ aggSub rest := by
  obtain ⟨t, hl, ht⟩ := aggMatchAt_append l k f rest h
  cases htc : t with
  | nil => exact absurd htc ht
  | cons a t' =>
    subst htc
    have hlc : l = a :: (t' ++ rest) := by simpa using hl
    have hlen : l.length - rest.length - 1 = t'.length := by
      rw [hlc]; simp only [List.length_cons, List.length_append]; omega
    calc aggSub l = aggSubGo 0 l := rfl
      _ = replace_agg k f ++ aggSubGo (l.length - rest.length - 1) (t' ++ rest) := by
          rw [hlc]
          rw [show aggSubGo 0 (a :: (t' ++ rest)) =
            match aggMatchAt (a :: (t' ++ rest)) with
            | some (k, f, rest2) =>
              replace_agg k f ++
                aggSubGo ((a :: (t' ++ rest)).length - rest2.length - 1) (t' ++ rest)
            | none => a :: aggSubGo 0 (t' ++ rest) from rfl]
          rw [← hlc, h, hlc]
      _ = replace_agg k f ++ aggSubGo 0 ((t' ++ rest).drop t'.length) := by
          rw [hlen, aggSubGo_drop]
      _ = replace_agg k f ++ aggSub rest := by rw [List.drop_left]; rfl

theorem aggSub_append_of_inert (pre q : List Char)
    (h : ∀ i, i < pre.length → aggMatchAt ((pre ++ q).drop i) = none) :
    aggSub (pre ++ q) = pre ++ aggSub q := by
  induction pre with
  | nil => simp
  | cons c tl ih =>
    have h0 : aggMatchAt (c :: (tl ++ q)) = none := by
      have := h 0 (by simp)
      simpa using this
    have hstep : aggSub ((c :: tl) ++ q) = c :: aggSub (tl ++ q) := by
      simpa using aggSub_cons_of_none c (tl ++ q) h0
    rw [hstep, ih (fun i hi => by
      have := h (i + 1) (by simpa using Nat.succ_lt_succ hi)
      simpa using this)]
    rfl

/-! The claims. -/

/-- Claim C5: for every query in which the recognized time-range WHERE
shape does not occur (the search of the embedded pattern fails), the
transformer returns start time `10m`, end time `now`, and the query text
unchanged except for trimming surrounding whitespace. -/
theorem claim5_no_time_shape_defaults (q : List Char)
    (h : tsSearch q = none) :
    extract_and_remove_time_conditions q = (pyStrip q, s2l "10m", s2l "now") := by
  simp [extract_and_remove_time_conditions, h]

/-- Witness for C5: a query with no time-range clause passes through with
only its surrounding whitespace trimmed, and the relative defaults. -/
theorem claim5_no_time_shape_defaults_witness :
    extract_and_remove_time_conditions (s2l "  SELECT * FROM otherlogs  ") =
      (s2l "SELECT * FROM otherlogs", s2l "10m", s2l "now") := by
  have h := claim5_no_time_shape_defaults (s2l "  SELECT * FROM otherlogs  ")
    (by decide)
  rw [h]
  decide

/-- Claim C6: whenever the server answers with a non-success status, the
package-root cursor's `execute` raises a `DatabaseError` whose message is
`Query failed: ` followed by the raw response body, so the message contains
the body text. -/
theorem claim6_error_carries_body (op : List Char) (resp : InitResponse)
    (h : resp.status ≠ 200) :
    (initExecute op resp).2 = .error (s2l "Query failed: " ++ resp.text) ∧
    containsSub (s2l "Query failed: " ++ resp.text) resp.text = true := by
  refine ⟨?_, containsSub_append_self _ _⟩
  simp [initExecute, h]

/-- Witness for C6: HTTP 500 with body `internal error` raises the query
error whose message contains `internal error`. -/
theorem claim6_error_carries_body_witness :
    (initExecute (s2l "SELECT * FROM logs")
        { status := 500, text := s2l "internal error", json := [] }).2 =
      .error (s2l "Query failed: internal error") ∧
    containsSub (s2l "Query failed: internal error") (s2l "internal error") = true := by
  have h := claim6_error_carries_body (s2l "SELECT * FROM logs")
    { status := 500, text := s2l "internal error", json := [] } (by decide)
  exact ⟨h.1.trans (congrArg Except.error (by decide)), h.2⟩

/-- Claim C8: `executemany` raises the `executemany is not supported` error
for every operation and parameter sequence; its body is a single raise, so
no request is ever issued and it never degrades to repeated `execute`. -/
theorem claim8_executemany_unsupported (op : List Char) (seq : List Row) :
    initExecutemany op seq = .error (s2l "executemany is not supported") := rfl

/-- Claim C9: a table name containing a hyphen, space or dot is escaped to
its double-quoted form, and when the generated query does not already
contain that quoted form, every occurrence of the raw name is replaced by
the quoted one before transmission; a name without those characters is
embedded unchanged. -/
theorem claim9_table_name_quoting (t mq u q : List Char)
    (h1 : (t.contains '-' || t.contains ' ' || t.contains '.') = true)
    (h2 : containsSub mq (dquoted t) = false)
    (h3 : (u.contains '-' || u.contains ' ' || u.contains '.') = false) :
    escape_table_name t = dquoted t ∧
    quote_table_in_query mq t = replaceAll mq t (dquoted t) ∧
    quote_table_in_query q u = q := by
  have hesc : escape_table_name t = dquoted t := by
    unfold escape_table_name
    rw [h1]
    simp [dquoted]
  refine ⟨hesc, ?_, ?_⟩
  · simp [quote_table_in_query, h2, hesc]
  · have hescu : escape_table_name u = u := by
      unfold escape_table_name
      rw [h3]
      simp
    by_cases hc : containsSub q (dquoted u) = true
    · simp [quote_table_in_query, hc]
    · simp only [quote_table_in_query, Bool.not_eq_true] at hc ⊢
      rw [hc]
      simp only [if_false, hescu]
      exact replaceAll_self q u

/-- Witness for C9: the table name `my-stream` is quoted inside the query
before transmission, and the plain name `logs` is left untouched. -/
theorem claim9_table_name_quoting_witness :
    quote_table_in_query (s2l "select * from my-stream LIMIT 1") (s2l "my-stream") =
      s2l "select * from \"my-stream\" LIMIT 1" ∧
    quote_table_in_query (s2l "select * from logs LIMIT 1") (s2l "logs") =
      s2l "select * from logs LIMIT 1" := by
  have h := claim9_table_name_quoting (s2l "my-stream")
    (s2l "select * from my-stream LIMIT 1") (s2l "logs")
    (s2l "select * from logs LIMIT 1") (by decide) (by decide) (by decide)
  exact ⟨h.2.1.trans (by decide), h.2.2⟩

/-- Claim C1 counterexample: on a query whose clause removal leaves another
WHERE behind, the code additionally replaces the first `AND` substring with
`WHERE`, so the rewritten query does not equal the input with the matched
clause merely removed and trimmed; the start/end conjuncts hold but the
conjunction of the claim fails. -/
theorem claim1_counterexample :
    (extract_and_remove_time_conditions c1cexQ).1 =
      s2l "SELECT a FROM t WHERE x = 1 WHERE y = 2" ∧
    ¬ ((extract_and_remove_time_conditions c1cexQ).2.1 = s2l "2024-01-01T00:00:00Z" ∧
       (extract_and_remove_time_conditions c1cexQ).2.2 = s2l "2024-01-02T00:00:00Z" ∧
       (extract_and_remove_time_conditions c1cexQ).1 =
         s2l "SELECT a FROM t WHERE x = 1 AND y = 2") := by
  decide

/-- Claim C1 (amended): when the time-range pattern matches with text `m`
and groups `g1`, `g2`, and the text left after deleting every occurrence of
`m` contains no `WHERE` (upper-cased check), the transformer returns
exactly the input with the matched clause text removed and trimmed,
start time `g1` with spaces replaced by `T` plus a trailing `Z`, end time
likewise from `g2`; the rewritten query then contains no WHERE at all,
hence no WHERE clause referencing `p_timestamp`. -/
theorem claim1_amended (q m g1 g2 : List Char)
    (hs : tsSearch q = some (m, g1, g2))
    (hw : containsSub (pyUpper (replaceAll q m [])) (s2l "WHERE") = false) :
    extract_and_remove_time_conditions q =
      (pyStrip (replaceAll q m []), g1.map spaceToT ++ ['Z'], g2.map spaceToT ++ ['Z']) ∧
    containsSub (pyUpper (extract_and_remove_time_conditions q).1)
      (s2l "WHERE") = false := by
  have h1 : extract_and_remove_time_conditions q =
      (pyStrip (replaceAll q m []), g1.map spaceToT ++ ['Z'], g2.map spaceToT ++ ['Z']) := by
    simp [extract_and_remove_time_conditions, hs, hw]
  refine ⟨h1, ?_⟩
  rw [h1]
  cases hv : containsSub (pyUpper (pyStrip (replaceAll q m []))) (s2l "WHERE") with
  | false => rfl
  | true =>
    have hup := containsSub_of_strip (replaceAll q m []) (s2l "WHERE") hv
    rw [hw] at hup
    exact absurd hup (by decide)

/-- Witness for the amended C1: the spec's scenario query is rewritten to
`SELECT * FROM logs` with the converted bounds, and no WHERE remains. -/
theorem claim1_amended_witness :
    extract_and_remove_time_conditions c1wQ =
      (s2l "SELECT * FROM logs", s2l "2024-01-01T00:00:00Z",
        s2l "2024-01-02T00:00:00Z") ∧
    containsSub (pyUpper (extract_and_remove_time_conditions c1wQ).1)
      (s2l "WHERE") = false := by
  have h := claim1_amended c1wQ c1wM (s2l "2024-01-01 00:00:00")
    (s2l "2024-01-02 00:00:00") (by decide) (by decide)
  exact ⟨h.1.trans (by decide), h.2⟩

/-- Claim C2 counterexample: removing the matched clause from this query
leaves the dangling residue `AND x = 1` with no WHERE, and the code leaves
it unchanged instead of turning the first remaining `AND` into `WHERE`. -/
theorem claim2_counterexample :
    (extract_and_remove_time_conditions c2cexQ).1 =
      s2l "SELECT * FROM t  AND x = 1" ∧
    (extract_and_remove_time_conditions c2cexQ).1 ≠
      s2l "SELECT * FROM t  WHERE x = 1" := by
  decide

/-- Claim C2 (amended): the AND-to-WHERE repair fires only when the residual
text still contains the substring `WHERE` (checked on the upper-cased
text); in that case the transformer returns the residue with its first
`AND` substring (case-sensitive, not token-aware) replaced by `WHERE`,
then stripped.  A dangling `AND <cond>` with no remaining WHERE is left
unrepaired (see the counterexample). -/
theorem claim2_amended (q m g1 g2 : List Char)
    (hs : tsSearch q = some (m, g1, g2))
    (hw : containsSub (pyUpper (replaceAll q m [])) (s2l "WHERE") = true) :
    (extract_and_remove_time_conditions q).1 =
      pyStrip (replaceFirst (replaceAll q m []) (s2l "AND") (s2l "WHERE")) := by
  simp [extract_and_remove_time_conditions, hs, hw]

/-- Witness for the amended C2: with a residual WHERE present the first
`AND` becomes `WHERE`. -/
theorem claim2_amended_witness :
    (extract_and_remove_time_conditions c2wQ).1 =
      s2l "SELECT b FROM u WHERE c = 1 WHERE d = 2" := by
  have h := claim2_amended c2wQ c2wM (s2l "2024-03-01 00:00:00")
    (s2l "2024-03-02 00:00:00") (by decide) (by decide)
  exact h.trans (by decide)

/-- Claim C3 counterexample: a `COUNT` occurrence is not left byte-identical;
`count( x )` is normalized to `COUNT(x)` (upper-cased name, stripped
argument) while the claim requires it unchanged. -/
theorem claim3_counterexample :
    transform_query (s2l "SELECT count( x ) FROM t") =
      s2l "SELECT COUNT(x) FROM t LIMIT 100" ∧
    transform_query (s2l "SELECT count( x ) FROM t") ≠
      s2l "SELECT count( x ) FROM t LIMIT 100" := by
  decide

/-- Claim C3 (amended): at the first aggregate match after an inert prefix,
`AVG`/`SUM` occurrences are rewritten with the argument stripped and
wrapped in `TRY_CAST(... AS DOUBLE)`, while `COUNT` occurrences are not
cast-wrapped but are still normalized to `COUNT(` + stripped argument +
`)` with the name upper-cased — byte-identical only when already written
in exactly that canonical form. -/
theorem claim3_amended (pre q f rest : List Char) (k : AggKind)
    (hpre : ∀ i, i < pre.length → aggMatchAt ((pre ++ q).drop i) = none)
    (hm : aggMatchAt q = some (k, f, rest)) :
    aggSub (pre ++ q) =
      pre ++ ((match k with
        | AggKind.avg => s2l "AVG(TRY_CAST(" ++ pyStrip f ++ s2l " AS DOUBLE))"
        | AggKind.sum => s2l "SUM(TRY_CAST(" ++ pyStrip f ++ s2l " AS DOUBLE))"
        | AggKind.count => s2l "COUNT(" ++ pyStrip f ++ s2l ")") ++ aggSub rest) := by
  rw [aggSub_append_of_inert pre q hpre, aggSub_of_match q k f rest hm]
  cases k <;> rfl

/-- Witness for the amended C3: `avg(price)` in context becomes
`AVG(TRY_CAST(price AS DOUBLE))` and the surrounding text is untouched. -/
theorem claim3_amended_witness :
    aggSub (s2l "SELECT avg(price) FROM t") =
      s2l "SELECT AVG(TRY_CAST(price AS DOUBLE)) FROM t" := by
  have h := claim3_amended (s2l "SELECT ") (s2l "avg(price) FROM t")
    (s2l "price") (s2l " FROM t") AggKind.avg (by decide) (by decide)
  exact h.trans (by decide)

/-- Claim C4 counterexample: on `SELECT a FROM t LIMIT LIMIT 7 5` the
removal of the single `LIMIT 7` match juxtaposes `LIMIT ` with ` 5` into a
new LIMIT-shaped clause, so the transformed query contains two LIMIT
clauses, not exactly one. -/
theorem claim4_counterexample :
    transform_query c4cexQ = s2l "SELECT a FROM t LIMIT  5 LIMIT 7" ∧
    limCount (transform_query c4cexQ) = 2 ∧
    limCount (transform_query c4cexQ) ≠ 1 := by
  decide

/-- Claim C4 (amended): for every query the transform deletes each
left-to-right `LIMIT <digits>` match of the aggregate-rewritten query,
strips it, and appends one new clause ` LIMIT min(n, 100)` at the end,
where `n` is the number of the first match (100 when there is none).  The
appended clause is the only one the transform adds, but the textual
deletion can leave other LIMIT-shaped text behind (see the
counterexample), so "exactly one LIMIT clause" does not hold in general. -/
theorem claim4_amended (q : List Char) :
    transform_query q =
      (match limSearch (aggSub q) with
       | some ds =>
         pyStrip (limRemove (aggSub q)) ++ s2l " LIMIT " ++
           natToDec (min (natOfDigits ds) 100)
       | none => pyStrip (aggSub q) ++ s2l " LIMIT 100") := by
  unfold transform_query
  cases h : limSearch (aggSub q) with
  | none => simp [h]
  | some ds =>
    simp only [h]
    have hmin : (if natOfDigits ds > 100 then 100 else natOfDigits ds) =
        min (natOfDigits ds) 100 := by
      rw [Nat.min_def]
      split
      · split
        · omega
        · omega
      · split
        · omega
        · omega
    rw [hmin]

/-- Claim C7 counterexample: when the server returns an empty list, the
dialect cursor's `execute` leaves the state untouched (the
`if result and isinstance(result, list)` guard is falsy), so a fresh
cursor keeps `rowcount = -1` while `fetchall` yields no tuples: the
round-trip count equality fails on an empty result. -/
theorem claim7_counterexample :
    (dialectExecute (some (s2l "logs")) DialectCursor.init
        (s2l "SELECT * FROM logs")
        { status := 200, text := [], json := .arr [] } []).2 =
      .ok (DialectCursor.init, -1) ∧
    ¬ (((dialectFetchall DialectCursor.init).1.length : Int) =
        DialectCursor.init.rowcount) := by
  constructor
  · rfl
  · decide

/-- Claim C7 (amended): after a successful `execute` whose response body is
a non-empty list of rows that all share the first row's key order,
`fetchall` returns exactly `rowcount` tuples, the tuples are each row's
values in that row's own order, and every buffered row's key sequence
coincides with the description's column names, so tuple positions follow
the description's column order.  (For an empty or non-list body the state
is left stale; see the counterexample.) -/
theorem claim7_roundtrip (t op errText : List Char) (st st' : DialectCursor)
    (resp : HttpResponse) (ret : Int) (rows : List Row)
    (hjson : resp.json = .arr rows) (hne : rows ≠ [])
    (hkeys : ∀ r ∈ rows, r.map Prod.fst = (rows.headD []).map Prod.fst)
    (hex : (dialectExecute (some t) st op resp errText).2 = .ok (st', ret)) :
    ((dialectFetchall st').1.length : Int) = st'.rowcount ∧
    (dialectFetchall st').1 = st'.rows.map (fun r => r.map Prod.snd) ∧
    ∀ r ∈ st'.rows, st'.description.map (fun d => d.map Prod.fst) =
      some (r.map Prod.fst) := by
  unfold dialectExecute at hex
  dsimp only at hex
  by_cases hsel : pyUpper (pyStrip op) = s2l "SELECT 1"
  · rw [if_pos hsel] at hex
    simp only [execute_query] at hex
    cases hrs : raiseForStatus resp.status with
    | true => rw [hrs] at hex; simp at hex
    | false =>
      rw [hrs] at hex
      simp only [Bool.false_eq_true, if_false] at hex
      simp only [Except.ok.injEq, Prod.mk.injEq] at hex
      obtain ⟨hst, hret⟩ := hex
      subst hst
      refine ⟨by decide, by decide, ?_⟩
      intro r hr
      simp only [List.mem_singleton] at hr
      subst hr
      decide
  · rw [if_neg hsel] at hex
    simp only [execute_query] at hex
    cases hrs : raiseForStatus resp.status with
    | true => rw [hrs] at hex; simp at hex
    | false =>
      rw [hrs] at hex
      simp only [Bool.false_eq_true, if_false] at hex
      rw [hjson] at hex
      cases rows with
      | nil => exact absurd rfl hne
      | cons r0 rs =>
        simp only [Except.ok.injEq, Prod.mk.injEq] at hex
        obtain ⟨hst, hret⟩ := hex
        subst hst
        refine ⟨?_, rfl, ?_⟩
        · simp [dialectFetchall]
        · intro r hr
          have hk := hkeys r hr
          simp only [List.headD_cons] at hk
          simp only [dialectFetchall, List.map_map, Option.map_some']
          rw [hk]
          rfl

/-- Witness for the amended C7: two rows with equal key order round-trip
through `execute` and `fetchall` with matching count and column order. -/
theorem claim7_roundtrip_witness :
    ((dialectFetchall
        { rows := [[(s2l "a", JVal.jstr (s2l "x")), (s2l "b", JVal.jnum 2)],
                   [(s2l "a", JVal.jnull), (s2l "b", JVal.jbool true)]],
          rowcount := 2,
          description := some [(s2l "a", SqlTy.varchar), (s2l "b", SqlTy.varchar)] }).1.length : Int) = 2 ∧
    (dialectFetchall
        { rows := [[(s2l "a", JVal.jstr (s2l "x")), (s2l "b", JVal.jnum 2)],
                   [(s2l "a", JVal.jnull), (s2l "b", JVal.jbool true)]],
          rowcount := 2,
          description := some [(s2l "a", SqlTy.varchar), (s2l "b", SqlTy.varchar)] }).1 =
      [[JVal.jstr (s2l "x"), JVal.jnum 2], [JVal.jnull, JVal.jbool true]] := by
  have h := claim7_roundtrip (s2l "logs") (s2l "SELECT * FROM logs") []
    DialectCursor.init
    { rows := [[(s2l "a", JVal.jstr (s2l "x")), (s2l "b", JVal.jnum 2)],
               [(s2l "a", JVal.jnull), (s2l "b", JVal.jbool true)]],
      rowcount := 2,
      description := some [(s2l "a", SqlTy.varchar), (s2l "b", SqlTy.varchar)] }
    { status := 200, text := [],
      json := .arr [[(s2l "a", JVal.jstr (s2l "x")), (s2l "b", JVal.jnum 2)],
                    [(s2l "a", JVal.jnull), (s2l "b", JVal.jbool true)]] }
    2
    [[(s2l "a", JVal.jstr (s2l "x")), (s2l "b", JVal.jnum 2)],
     [(s2l "a", JVal.jnull), (s2l "b", JVal.jbool true)]]
    (by decide) (by decide) (by decide) (by rfl)
  exact ⟨h.1, h.2.1.trans (by decide)⟩

/-- Claim C10: an operation whose trimmed upper-cased text is `SELECT 1` is
intercepted: the posted request is built from the probe
`select * from <table> limit 1` (so the original text is never sent), and
on any successful response — whatever its JSON content — the cursor holds
the single fabricated row `result = 1`, rowcount 1, and one INTEGER column
named `result`. -/
theorem claim10_select1 (t op errText : List Char) (st : DialectCursor)
    (resp : HttpResponse)
    (h1 : pyUpper (pyStrip op) = s2l "SELECT 1")
    (h2 : raiseForStatus resp.status = false) :
    dialectExecute (some t) st op resp errText =
      (some (execute_query_payload t (s2l "select * from " ++ t ++ s2l " limit 1")),
       .ok ({ rows := [[(s2l "result", JVal.jnum 1)]], rowcount := 1,
              description := some [(s2l "result", SqlTy.integer)] }, 1)) := by
  unfold dialectExecute
  dsimp only
  rw [if_pos h1]
  simp [execute_query, h2]

/-- Witness for C10: ` select 1 ` against table `logs` posts the rewritten
probe `select * from logs LIMIT 1` with the default relative window and
fabricates the `result = 1` row, although the server's JSON body held
other data. -/
theorem claim10_select1_witness :
    dialectExecute (some (s2l "logs")) DialectCursor.init (s2l " select 1 ")
      { status := 200, text := s2l "whatever",
        json := .arr [[(s2l "a", JVal.jstr (s2l "b"))]] } [] =
      (some { query := s2l "select * from logs LIMIT 1",
              startTime := s2l "10m", endTime := s2l "now" },
       .ok ({ rows := [[(s2l "result", JVal.jnum 1)]], rowcount := 1,
              description := some [(s2l "result", SqlTy.integer)] }, 1)) := by
  have h := claim10_select1 (s2l "logs") (s2l " select 1 ") [] DialectCursor.init
    { status := 200, text := s2l "whatever",
      json := .arr [[(s2l "a", JVal.jstr (s2l "b"))]] }
    (by decide) (by decide)
  have hp : execute_query_payload (s2l "logs")
      (s2l "select * from " ++ s2l "logs" ++ s2l " limit 1") =
      { query := s2l "select * from logs LIMIT 1",
        startTime := s2l "10m", endTime := s2l "now" } := by decide
  rw [h, hp]

end Parseable

